import Mathlib

/-!
Verification of the Mineflare file-server core (docker_src/file-server.ts):
backup key scheme, chunked transfer engine, retry logic, path sandboxing,
maintenance gating, modpack install pipeline and the job registries.

Each TypeScript function used by the claims is shallowly embedded as an
executable Lean definition; external effects (network fetches, subprocesses,
the filesystem) are passed in as explicit parameters or outcome records.
-/

namespace Mineflare

/-! ### Decimal strings

`natToString n` models JavaScript `String(n)` for a nonnegative integer:
the usual base-10 representation, most significant digit first.
It is written with explicit fuel so that it evaluates inside the kernel;
`decDigitsAux_eq_digits` ties it to Mathlib's `Nat.digits`. -/

/-- Fuel-driven decimal digit printer: `decDigitsAux fuel n` is the decimal
representation of `n` (most significant digit first, empty for `n = 0`)
whenever `n ≤ fuel`. -/
def decDigitsAux : Nat → Nat → List Char
  | _, 0 => []
  | 0, _ + 1 => []
  | fuel + 1, n + 1 =>
    decDigitsAux fuel ((n + 1) / 10) ++ [Nat.digitChar ((n + 1) % 10)]

/-- Decimal string of a natural number, modelling JS `String(n)`. -/
def natToString (n : Nat) : String :=
  if n = 0 then "0" else String.mk (decDigitsAux n n)

/-- JS `s.padStart(w, c)`: left-pad `s` with `c` up to length `w`
(no-op when `s` is already at least that long). -/
def padStart (s : String) (w : Nat) (c : Char) : String :=
  String.mk (List.replicate (w - s.length) c ++ s.data)

theorem decDigitsAux_eq_digits (n : Nat) :
    ∀ fuel, n ≤ fuel →
      decDigitsAux fuel n = (Nat.digits 10 n).reverse.map Nat.digitChar := by
  induction n using Nat.strong_induction_on with
  | _ n ih =>
    intro fuel hfuel
    match n, fuel with
    | 0, fuel => simp [decDigitsAux]
    | n + 1, 0 => omega
    | n + 1, fuel + 1 =>
      have hq : (n + 1) / 10 < n + 1 := Nat.div_lt_self (Nat.succ_pos n) (by norm_num)
      have hrec := ih ((n + 1) / 10) hq fuel (by omega)
      rw [decDigitsAux, hrec, Nat.digits_def' (b := 10) (by norm_num) (Nat.succ_pos n)]
      simp

theorem natToString_data (n : Nat) :
    (natToString n).data =
      if n = 0 then ['0'] else (Nat.digits 10 n).reverse.map Nat.digitChar := by
  by_cases h : n = 0
  · simp [natToString, h]
  · simp [natToString, h, decDigitsAux_eq_digits n n (Nat.le_refl n)]

/-! ### The backup key scheme (file-server.ts lines 44-62) -/

/-- `MAX_EPOCH_SECONDS = Math.floor(new Date('2125-01-01T00:00:00Z').getTime() / 1000)`:
the Unix epoch-seconds of 2125-01-01T00:00:00Z
(56613 days of 86400 seconds after 1970-01-01). -/
def MAX_EPOCH_SECONDS : Nat := 4891363200

/-- `REV_SECONDS_WIDTH = String(MAX_EPOCH_SECONDS).length`. -/
def REV_SECONDS_WIDTH : Nat := (natToString MAX_EPOCH_SECONDS).length

theorem rev_seconds_width_eq : REV_SECONDS_WIDTH = 10 := by decide

/-- Civil date `(year, month, day)` of a day count since 1970-01-01
(Howard Hinnant's `civil_from_days`, restricted to nonnegative inputs).
Models the `getUTCFullYear/getUTCMonth/getUTCDate` reads on a JS `Date`. -/
def civilFromDays (z : Nat) : Nat × Nat × Nat :=
  let z' := z + 719468
  let era := z' / 146097
  let doe := z' % 146097
  let yoe := (doe - doe / 1460 + doe / 36524 - doe / 146097) / 365
  let y := yoe + era * 400
  let doy := doe - (365 * yoe + yoe / 4 - yoe / 100)
  let mp := (5 * doy + 2) / 153
  let d := doy - (153 * mp + 2) / 5 + 1
  let m := if mp < 10 then mp + 3 else mp - 9
  (if m ≤ 2 then y + 1 else y, m, d)

/-- `formatUTCDateYYYYMMDDHH(d)` from the source, for a `Date` whose
epoch-seconds value is `sec`. -/
def formatUTCDateYYYYMMDDHH (sec : Nat) : String :=
  let info := civilFromDays (sec / 86400)
  let HH := sec % 86400 / 3600
  natToString info.1 ++ padStart (natToString info.2.1) 2 '0'
    ++ padStart (natToString info.2.2) 2 '0' ++ padStart (natToString HH) 2 '0'

/-- `generateBackupKey(dirName, at)` from the source, where
`atSec = Math.floor(at.getTime() / 1000)` is the epoch-seconds of the `Date`
argument (so `nowSeconds = atSec`, `reverseEpochSeconds = MAX_EPOCH_SECONDS - atSec`,
`reversePart = String(reverseEpochSeconds).padStart(REV_SECONDS_WIDTH, '0')`). -/
def generateBackupKey (dirName : String) (atSec : Nat) : String :=
  "backups/" ++ padStart (natToString (MAX_EPOCH_SECONDS - atSec)) REV_SECONDS_WIDTH '0'
    ++ "_" ++ formatUTCDateYYYYMMDDHH atSec ++ "_" ++ dirName ++ ".tar.gz"

theorem formatUTCDate_sanity : formatUTCDateYYYYMMDDHH MAX_EPOCH_SECONDS = "2125010100" := by
  decide

/-! ### Lexicographic order of fixed-width decimal fields

The invariant behind the key scheme: on equal-width decimal digit blocks,
the lexicographic order of the rendered characters agrees with the numeric
order of the values. -/

/-- Numeric value of a most-significant-digit-first base-10 digit list. -/
def valMSD (L : List Nat) : Nat := L.foldl (fun a d => 10 * a + d) 0

theorem valMSD_foldl (i : Nat) (L : List Nat) :
    L.foldl (fun a d => 10 * a + d) i = i * 10 ^ L.length + valMSD L := by
  induction L generalizing i with
  | nil => simp [valMSD]
  | cons d L ih =>
    show L.foldl _ (10 * i + d) = _
    rw [ih (10 * i + d)]
    have hd : valMSD (d :: L) = d * 10 ^ L.length + valMSD L := by
      show L.foldl _ (10 * 0 + d) = _
      rw [ih (10 * 0 + d)]; ring
    rw [hd]; simp [List.length_cons]; ring

theorem valMSD_cons (d : Nat) (L : List Nat) :
    valMSD (d :: L) = d * 10 ^ L.length + valMSD L := by
  show L.foldl _ (10 * 0 + d) = _
  rw [valMSD_foldl]; ring

theorem valMSD_lt_pow (L : List Nat) (h : ∀ d ∈ L, d < 10) :
    valMSD L < 10 ^ L.length := by
  induction L with
  | nil => simp [valMSD]
  | cons d L ih =>
    have hd : d < 10 := h d (List.mem_cons_self d L)
    have hL : valMSD L < 10 ^ L.length := ih fun x hx => h x (List.mem_cons_of_mem d hx)
    rw [valMSD_cons, List.length_cons, pow_succ]
    calc d * 10 ^ L.length + valMSD L
        < d * 10 ^ L.length + 10 ^ L.length := by omega
      _ = (d + 1) * 10 ^ L.length := by ring
      _ ≤ 10 ^ L.length * 10 := by
          rw [Nat.mul_comm (10 ^ L.length) 10]
          exact Nat.mul_le_mul_right _ (by omega)

theorem digitChar_strictMono :
    ∀ a, a < 10 → ∀ b, b < 10 → a < b → Nat.digitChar a < Nat.digitChar b := by
  decide

/-- On equal-length digit lists, numeric order implies lexicographic order of
the rendered character lists. -/
theorem digitList_lt (L M : List Nat) (hlen : L.length = M.length)
    (hL : ∀ d ∈ L, d < 10) (hM : ∀ d ∈ M, d < 10)
    (hv : valMSD L < valMSD M) :
    List.Lex (· < ·) (L.map Nat.digitChar) (M.map Nat.digitChar) := by
  induction L generalizing M with
  | nil =>
    cases M with
    | nil => simp [valMSD] at hv
    | cons b M => simp at hlen
  | cons a L ih =>
    cases M with
    | nil => simp at hlen
    | cons b M =>
      have hlen' : L.length = M.length := by simpa using hlen
      have ha : a < 10 := hL a (List.mem_cons_self _ _)
      have hb : b < 10 := hM b (List.mem_cons_self _ _)
      simp only [List.map_cons]
      rcases Nat.lt_trichotomy a b with hab | hab | hab
      · exact List.Lex.rel (digitChar_strictMono a ha b hb hab)
      · subst hab
        have hvL : valMSD L < valMSD M := by
          rw [valMSD_cons, valMSD_cons, hlen'] at hv
          omega
        exact List.Lex.cons (ih M hlen'
          (fun x hx => hL x (List.mem_cons_of_mem _ hx))
          (fun x hx => hM x (List.mem_cons_of_mem _ hx)) hvL)
      · exfalso
        have hMlt : valMSD (b :: M) < valMSD (a :: L) := by
          rw [valMSD_cons, valMSD_cons, hlen']
          have hMv : valMSD M < 10 ^ M.length :=
            valMSD_lt_pow M fun x hx => hM x (List.mem_cons_of_mem _ hx)
          have hba : (b + 1) * 10 ^ M.length ≤ a * 10 ^ M.length :=
            Nat.mul_le_mul_right _ (by omega)
          calc b * 10 ^ M.length + valMSD M
              < (b + 1) * 10 ^ M.length := by ring_nf; omega
            _ ≤ a * 10 ^ M.length := hba
            _ ≤ a * 10 ^ M.length + valMSD L := Nat.le_add_right _ _
        omega

/-- Lexicographic comparison is stable under prepending a common block. -/
theorem lex_append_left {α} (r : α → α → Prop) (P : List α) {A B : List α}
    (hAB : List.Lex r A B) : List.Lex r (P ++ A) (P ++ B) := by
  induction P with
  | nil => exact hAB
  | cons p P ih => exact List.Lex.cons ih

/-- Once equal-length blocks compare strictly, arbitrary suffixes cannot
reverse the comparison. -/
theorem lex_append_of_lex {α} (r : α → α → Prop) {A B : List α}
    (h : List.Lex r A B) (hlen : A.length = B.length) (X Y : List α) :
    List.Lex r (A ++ X) (B ++ Y) := by
  induction h with
  | nil => simp at hlen
  | @cons a l₁ l₂ _ ih =>
    have h' : l₁.length = l₂.length := by simpa using hlen
    exact List.Lex.cons (ih h')
  | rel h => exact List.Lex.rel h

/-! ### Padded reverse-epoch fields -/

/-- The digit list rendered by `padStart (natToString n) w '0'`:
`n`'s decimal digits, zero-padded on the left to width `w`. -/
def paddedDigits (w n : Nat) : List Nat :=
  List.replicate (w - ((Nat.digits 10 n).reverse.map Nat.digitChar).length) 0
    ++ (Nat.digits 10 n).reverse

theorem valMSD_replicate_zero_append (k : Nat) (X : List Nat) :
    valMSD (List.replicate k 0 ++ X) = valMSD X := by
  induction k with
  | zero => simp
  | succ k ih =>
    show valMSD (0 :: (List.replicate k 0 ++ X)) = _
    rw [valMSD_cons, ih]; simp

theorem valMSD_reverse_digits (L : List Nat) :
    valMSD L.reverse = Nat.ofDigits 10 L := by
  induction L with
  | nil => simp [valMSD, Nat.ofDigits]
  | cons d L ih =>
    rw [List.reverse_cons]
    have happ : valMSD (L.reverse ++ [d]) = 10 * valMSD L.reverse + d := by
      simp [valMSD, List.foldl_append]
    rw [happ, ih, Nat.ofDigits_cons]
    ring

theorem valMSD_paddedDigits (w n : Nat) : valMSD (paddedDigits w n) = n := by
  unfold paddedDigits
  rw [valMSD_replicate_zero_append, valMSD_reverse_digits, Nat.ofDigits_digits]

theorem paddedDigits_length (w n : Nat) (h : (Nat.digits 10 n).length ≤ w) :
    (paddedDigits w n).length = w := by
  unfold paddedDigits
  simp only [List.length_append, List.length_replicate, List.length_map,
    List.length_reverse]
  omega

theorem paddedDigits_mem_lt (w n : Nat) :
    ∀ d ∈ paddedDigits w n, d < 10 := by
  intro d hd
  unfold paddedDigits at hd
  rcases List.mem_append.mp hd with h | h
  · have := List.eq_of_mem_replicate h
    omega
  · exact Nat.digits_lt_base (by norm_num) (List.mem_reverse.mp h)

theorem digits_len_le_of_le_max (n : Nat) (h : n ≤ MAX_EPOCH_SECONDS) :
    (Nat.digits 10 n).length ≤ 10 := by
  by_cases h0 : n = 0
  · simp [h0]
  · rw [Nat.digits_len 10 n (by norm_num) h0]
    have hlt : n < 10 ^ 10 := by
      calc n ≤ MAX_EPOCH_SECONDS := h
        _ < 10 ^ 10 := by norm_num [MAX_EPOCH_SECONDS]
    have := Nat.log_lt_of_lt_pow h0 hlt
    omega

theorem padStart_natToString_data (n : Nat) :
    (padStart (natToString n) 10 '0').data = (paddedDigits 10 n).map Nat.digitChar := by
  by_cases h0 : n = 0
  · subst h0
    show (padStart (natToString 0) 10 '0').data = _
    have h1 : (natToString 0).data = ['0'] := by decide
    have h2 : natToString 0 = "0" := by decide
    simp [padStart, paddedDigits, h2]
    decide
  · have hdata : (natToString n).data = (Nat.digits 10 n).reverse.map Nat.digitChar := by
      rw [natToString_data]; simp [h0]
    have hlen : (natToString n).length
        = ((Nat.digits 10 n).reverse.map Nat.digitChar).length := by
      show (natToString n).data.length = _
      rw [hdata]
    simp only [padStart, paddedDigits, hlen, hdata, List.map_append, List.map_replicate]
    rfl

/-- C1 helper: numeric order of two values below the padding bound is reflected
contravariantly in the rendered zero-padded fields. -/
theorem padded_field_lt (r s : Nat) (hr : r ≤ MAX_EPOCH_SECONDS)
    (hs : s ≤ MAX_EPOCH_SECONDS) (hrs : r < s) :
    List.Lex (· < ·) (padStart (natToString r) 10 '0').data
      (padStart (natToString s) 10 '0').data := by
  rw [padStart_natToString_data, padStart_natToString_data]
  have hrlen : (paddedDigits 10 r).length = 10 := by
    apply paddedDigits_length
    have := digits_len_le_of_le_max r hr
    simpa using this
  have hslen : (paddedDigits 10 s).length = 10 := by
    apply paddedDigits_length
    have := digits_len_le_of_le_max s hs
    simpa using this
  apply digitList_lt _ _ (hrlen.trans hslen.symm)
    (paddedDigits_mem_lt 10 r) (paddedDigits_mem_lt 10 s)
  rw [valMSD_paddedDigits, valMSD_paddedDigits]
  exact hrs

theorem string_data_append (s t : String) : (s ++ t).data = s.data ++ t.data := by
  cases s; cases t; rfl

theorem string_lt_of_data_lex {s t : String} (h : List.Lex (· < ·) s.data t.data) :
    s < t := by
  rw [String.lt_iff_toList_lt]
  exact h

theorem padStart_field_length (n : Nat) (h : n ≤ MAX_EPOCH_SECONDS) :
    (padStart (natToString n) 10 '0').data.length = 10 := by
  rw [padStart_natToString_data, List.length_map]
  apply paddedDigits_length
  exact digits_len_le_of_le_max n h

theorem generateBackupKey_data (dirName : String) (t : Nat) :
    (generateBackupKey dirName t).data =
      "backups/".data ++
        ((padStart (natToString (MAX_EPOCH_SECONDS - t)) REV_SECONDS_WIDTH '0').data ++
          ("_" ++ formatUTCDateYYYYMMDDHH t ++ "_" ++ dirName ++ ".tar.gz").data) := by
  unfold generateBackupKey
  simp only [string_data_append, List.append_assoc]

/-- C1: for one directory name and any two epoch-second timestamps
`t1 < t2` that lie between the Unix epoch and `MAX_EPOCH_SECONDS`, the
backup key of the earlier timestamp is lexicographically strictly greater
than the key of the later one, so ascending lexicographic order of keys is
descending chronological order. -/
theorem generateBackupKey_newest_first (dirName : String) (t1 t2 : Nat)
    (h12 : t1 < t2) (h2 : t2 ≤ MAX_EPOCH_SECONDS) :
    generateBackupKey dirName t1 > generateBackupKey dirName t2 := by
  show generateBackupKey dirName t2 < generateBackupKey dirName t1
  apply string_lt_of_data_lex
  rw [generateBackupKey_data, generateBackupKey_data, rev_seconds_width_eq]
  apply lex_append_left
  apply lex_append_of_lex
  · exact padded_field_lt (MAX_EPOCH_SECONDS - t2) (MAX_EPOCH_SECONDS - t1)
      (Nat.sub_le _ _) (Nat.sub_le _ _) (by omega)
  · rw [padStart_field_length _ (Nat.sub_le _ _), padStart_field_length _ (Nat.sub_le _ _)]

theorem generateBackupKey_newest_first_witness :
    (0 : Nat) < 1 ∧ 1 ≤ MAX_EPOCH_SECONDS ∧
      generateBackupKey "world" 0 > generateBackupKey "world" 1 :=
  ⟨by norm_num, by norm_num [MAX_EPOCH_SECONDS],
    generateBackupKey_newest_first "world" 0 1 (by norm_num)
      (by norm_num [MAX_EPOCH_SECONDS])⟩

/-! ### Chunked transfer engine (file-server.ts lines 210-217 and 356-491)

A remote object is modelled as its byte list `obj`; a ranged GET of the
inclusive byte range `[start, stop]` returns `(obj.drop start).take
(stop - start + 1)`.  `downloadTasks` is the task array built by
`downloadLargeFile`, and `reconstitute` is its reconstitution loop, which
appends each part's bytes to the destination strictly in ascending part
order. -/

/-- `MAX_RETRIES = 3`. -/
def MAX_RETRIES : Nat := 3

/-- `RETRY_DELAY_MS = 1000`. -/
def RETRY_DELAY_MS : Nat := 1000

/-- `LARGE_FILE_THRESHOLD = 100 * 1024 * 1024` (100 MB). -/
def LARGE_FILE_THRESHOLD : Nat := 100 * 1024 * 1024

/-- `DOWNLOAD_CHUNK_SIZE = 50 * 1024 * 1024` (50 MB per chunk). -/
def DOWNLOAD_CHUNK_SIZE : Nat := 50 * 1024 * 1024

/-- `MAX_CONCURRENT_DOWNLOADS = 5`. -/
def MAX_CONCURRENT_DOWNLOADS : Nat := 5

/-- One entry of the `downloadTasks` array: `partNumber`, `start`, and the
inclusive end byte (called `end` in the source; renamed `stop` because `end`
is reserved in Lean). The temp-file suffix `.part(i)` is determined by the
index and is not modelled separately. -/
structure DownloadTask where
  partNumber : Nat
  start : Nat
  stop : Nat
deriving Repr, DecidableEq

/-- `numParts = Math.ceil(fileSize / DOWNLOAD_CHUNK_SIZE)`. -/
def numParts (fileSize : Nat) : Nat :=
  (fileSize + DOWNLOAD_CHUNK_SIZE - 1) / DOWNLOAD_CHUNK_SIZE

/-- The task array built by `downloadLargeFile`:
`start = i * DOWNLOAD_CHUNK_SIZE`,
`end = Math.min(start + DOWNLOAD_CHUNK_SIZE - 1, fileSize - 1)`. -/
def downloadTasks (fileSize : Nat) : List DownloadTask :=
  (List.range (numParts fileSize)).map fun i =>
    { partNumber := i + 1
      start := i * DOWNLOAD_CHUNK_SIZE
      stop := min (i * DOWNLOAD_CHUNK_SIZE + DOWNLOAD_CHUNK_SIZE - 1) (fileSize - 1) }

/-- Bytes served for a ranged GET of the inclusive range `[start, stop]`. -/
def rangeBytes (obj : List Nat) (start stop : Nat) : List Nat :=
  (obj.drop start).take (stop - start + 1)

/-- The reconstitution loop of `downloadLargeFile`: starting from an empty
destination, append each part's bytes strictly in ascending part order. -/
def reconstitute (obj : List Nat) : List Nat :=
  (downloadTasks obj.length).foldl (fun acc t => acc ++ rangeBytes obj t.start t.stop) []

theorem take_add' {α} (l : List α) (m n : Nat) :
    l.take (m + n) = l.take m ++ (l.drop m).take n := by
  conv_lhs => rw [← List.take_append_drop m (l.take (m + n))]
  rw [List.take_take, Nat.min_eq_left (Nat.le_add_right m n), ← List.take_drop]

theorem mul_chunk_lt_of_lt_numParts {i S : Nat} (h : i < numParts S) :
    i * DOWNLOAD_CHUNK_SIZE < S := by
  unfold numParts at h
  have h2 : (i + 1) * DOWNLOAD_CHUNK_SIZE
      ≤ ((S + DOWNLOAD_CHUNK_SIZE - 1) / DOWNLOAD_CHUNK_SIZE) * DOWNLOAD_CHUNK_SIZE :=
    Nat.mul_le_mul_right _ h
  have h4 := le_trans h2 (Nat.div_mul_le_self _ _)
  unfold DOWNLOAD_CHUNK_SIZE at h4 ⊢
  omega

theorem partBytes_eq_take_chunk (obj : List Nat) (i : Nat)
    (hi : i < numParts obj.length) :
    rangeBytes obj (i * DOWNLOAD_CHUNK_SIZE)
        (min (i * DOWNLOAD_CHUNK_SIZE + DOWNLOAD_CHUNK_SIZE - 1) (obj.length - 1))
      = (obj.drop (i * DOWNLOAD_CHUNK_SIZE)).take DOWNLOAD_CHUNK_SIZE := by
  have hstart : i * DOWNLOAD_CHUNK_SIZE < obj.length := mul_chunk_lt_of_lt_numParts hi
  have hC : 0 < DOWNLOAD_CHUNK_SIZE := by norm_num [DOWNLOAD_CHUNK_SIZE]
  unfold rangeBytes
  by_cases hlast : i * DOWNLOAD_CHUNK_SIZE + DOWNLOAD_CHUNK_SIZE ≤ obj.length
  · have : min (i * DOWNLOAD_CHUNK_SIZE + DOWNLOAD_CHUNK_SIZE - 1) (obj.length - 1)
        - i * DOWNLOAD_CHUNK_SIZE + 1 = DOWNLOAD_CHUNK_SIZE := by omega
    rw [this]
  · have hdroplen : (obj.drop (i * DOWNLOAD_CHUNK_SIZE)).length
        = obj.length - i * DOWNLOAD_CHUNK_SIZE := List.length_drop _ _
    have hcount : min (i * DOWNLOAD_CHUNK_SIZE + DOWNLOAD_CHUNK_SIZE - 1) (obj.length - 1)
        - i * DOWNLOAD_CHUNK_SIZE + 1 = obj.length - i * DOWNLOAD_CHUNK_SIZE := by omega
    rw [hcount, List.take_of_length_le (by omega), List.take_of_length_le (by omega)]

theorem chunks_take (obj : List Nat) :
    ∀ k, k ≤ numParts obj.length →
      (List.range k).foldl
          (fun acc i => acc ++ rangeBytes obj (i * DOWNLOAD_CHUNK_SIZE)
            (min (i * DOWNLOAD_CHUNK_SIZE + DOWNLOAD_CHUNK_SIZE - 1) (obj.length - 1))) []
        = obj.take (k * DOWNLOAD_CHUNK_SIZE) := by
  intro k
  induction k with
  | zero => intro _; simp
  | succ k ih =>
    intro hk
    rw [List.range_succ, List.foldl_append, ih (by omega)]
    simp only [List.foldl_cons, List.foldl_nil]
    rw [partBytes_eq_take_chunk obj k (by omega), ← take_add', Nat.succ_mul]

theorem numParts_mul_ge (S : Nat) : S ≤ numParts S * DOWNLOAD_CHUNK_SIZE := by
  unfold numParts DOWNLOAD_CHUNK_SIZE
  omega

/-- The reconstitution of any object from its chunk parts is byte-identical
to the object itself. -/
theorem reconstitute_eq (obj : List Nat) : reconstitute obj = obj := by
  unfold reconstitute downloadTasks
  rw [List.foldl_map]
  have h := chunks_take obj (numParts obj.length) (Nat.le_refl _)
  simp only at h ⊢
  rw [h, List.take_of_length_le (numParts_mul_ge obj.length)]

/-- C2: for an object of size `S ≥ LARGE_FILE_THRESHOLD`, the chunked path
builds exactly `ceil(S / DOWNLOAD_CHUNK_SIZE)` parts, part `i` covering the
half-open byte range `[i * CHUNK, min((i+1) * CHUNK, S))` (contiguous and
disjoint by construction, the last part possibly shorter), and appending the
parts' bytes strictly in ascending part order reconstructs a byte sequence
identical to a direct single fetch of the object. -/
theorem downloadLargeFile_roundtrip (obj : List Nat)
    (hlarge : LARGE_FILE_THRESHOLD ≤ obj.length) :
    (downloadTasks obj.length).length = numParts obj.length ∧
    (∀ i, i < numParts obj.length →
      (downloadTasks obj.length)[i]? = some
        { partNumber := i + 1
          start := i * DOWNLOAD_CHUNK_SIZE
          stop := min (i * DOWNLOAD_CHUNK_SIZE + DOWNLOAD_CHUNK_SIZE - 1) (obj.length - 1) } ∧
      min (i * DOWNLOAD_CHUNK_SIZE + DOWNLOAD_CHUNK_SIZE - 1) (obj.length - 1) + 1
        = min ((i + 1) * DOWNLOAD_CHUNK_SIZE) obj.length) ∧
    reconstitute obj = obj := by
  refine ⟨by simp [downloadTasks], fun i hi => ⟨?_, ?_⟩, reconstitute_eq obj⟩
  · simp [downloadTasks, List.getElem?_map, List.getElem?_range, hi]
  · have hstart : i * DOWNLOAD_CHUNK_SIZE < obj.length := mul_chunk_lt_of_lt_numParts hi
    have hC : 0 < DOWNLOAD_CHUNK_SIZE := by norm_num [DOWNLOAD_CHUNK_SIZE]
    have hmul : (i + 1) * DOWNLOAD_CHUNK_SIZE
        = i * DOWNLOAD_CHUNK_SIZE + DOWNLOAD_CHUNK_SIZE := by ring
    omega

theorem downloadLargeFile_roundtrip_witness :
    LARGE_FILE_THRESHOLD ≤ (List.replicate LARGE_FILE_THRESHOLD 0).length ∧
      reconstitute (List.replicate LARGE_FILE_THRESHOLD 0)
        = List.replicate LARGE_FILE_THRESHOLD 0 :=
  ⟨by simp, (downloadLargeFile_roundtrip (List.replicate LARGE_FILE_THRESHOLD 0)
    (by simp)).2.2⟩

/-! ### Per-part retry loop (file-server.ts lines 257-354)

`downloadRangeWithRetry` is driven by the outcome of each `fetch` attempt;
a non-2xx response is thrown and caught by the same `catch` as a network
error, so both are one `fail` constructor. A successful response body of any
byte length returns immediately; a mismatch against the expected range size
only logs a warning. -/

/-- Outcome of attempt number `i` of the range fetch: the response body
(transport success, any byte length), or the caught transport error
(non-2xx status or network failure). -/
inductive AttemptResult where
  | ok (data : List Nat)
  | fail (msg : String)
deriving Repr, DecidableEq

/-- Observable outcome of `downloadRangeWithRetry`: the returned data or
thrown error, the backoff delays slept in order, the number of fetch attempts
consumed, and the number of size-mismatch warnings logged. -/
structure RetryResult where
  result : Except String (List Nat)
  delays : List Nat
  attemptsMade : Nat
  warnings : Nat
deriving Repr

/-- The error thrown after the loop:
`Failed to download part (p)/(n) after (MAX_RETRIES) attempts: (lastError)`. -/
def retryFailureMessage (partNumber totalParts : Nat) (lastMsg : String) : String :=
  "Failed to download part " ++ natToString partNumber ++ "/" ++ natToString totalParts
    ++ " after " ++ natToString MAX_RETRIES ++ " attempts: " ++ lastMsg

/-- The `for (attempt = 1; attempt <= MAX_RETRIES; attempt++)` loop of
`downloadRangeWithRetry`, with `fuel = MAX_RETRIES - attempt + 1` iterations
left. Success returns the data at once (recording a warning when the byte
length differs from `rangeSize`); a caught failure sleeps
`RETRY_DELAY_MS * 2^(attempt-1)` unless this was the final attempt, in which
case the loop ends and the final error is thrown with the last message. -/
def retryAux (att : Nat → AttemptResult) (rangeSize partNumber totalParts : Nat) :
    Nat → Nat → String → RetryResult
  | 0, _, lastMsg =>
    { result := Except.error (retryFailureMessage partNumber totalParts lastMsg)
      delays := [], attemptsMade := 0, warnings := 0 }
  | fuel + 1, attempt, _ =>
    match att attempt with
    | AttemptResult.ok data =>
      { result := Except.ok data
        delays := []
        attemptsMade := 1
        warnings := if data.length = rangeSize then 0 else 1 }
    | AttemptResult.fail msg =>
      if fuel = 0 then
        { result := Except.error (retryFailureMessage partNumber totalParts msg)
          delays := [], attemptsMade := 1, warnings := 0 }
      else
        let rest := retryAux att rangeSize partNumber totalParts fuel (attempt + 1) msg
        { result := rest.result
          delays := RETRY_DELAY_MS * 2 ^ (attempt - 1) :: rest.delays
          attemptsMade := rest.attemptsMade + 1
          warnings := rest.warnings }

/-- `downloadRangeWithRetry(s3Client, key, start, end, partNumber, totalParts)`
with `rangeSize = end - start + 1`, starting at attempt 1 with no last error. -/
def downloadRangeWithRetry (att : Nat → AttemptResult)
    (start stop partNumber totalParts : Nat) : RetryResult :=
  retryAux att (stop - start + 1) partNumber totalParts MAX_RETRIES 1 ""

/-- C3: a part download makes at most `MAX_RETRIES` attempts with backoff
`RETRY_DELAY_MS * 2^(attempt-1)` recorded between attempts and none after the
final one; a transport success at any attempt `k` (even with a byte-length
mismatch, which only logs a warning) completes the part after exactly `k`
attempts; failing all `MAX_RETRIES` attempts yields the error naming the part
index and total part count. -/
theorem downloadRangeWithRetry_spec (att : Nat → AttemptResult)
    (start stop p n : Nat) :
    (downloadRangeWithRetry att start stop p n).attemptsMade ≤ MAX_RETRIES ∧
    (∀ k d, 1 ≤ k → k ≤ MAX_RETRIES →
      (∀ j, 1 ≤ j → j < k → ∃ m, att j = AttemptResult.fail m) →
      att k = AttemptResult.ok d →
      (downloadRangeWithRetry att start stop p n).result = Except.ok d ∧
      (downloadRangeWithRetry att start stop p n).attemptsMade = k ∧
      (downloadRangeWithRetry att start stop p n).delays =
        (List.range (k - 1)).map (fun j => RETRY_DELAY_MS * 2 ^ j) ∧
      (downloadRangeWithRetry att start stop p n).warnings =
        (if d.length = stop - start + 1 then 0 else 1)) ∧
    (∀ m1 m2 m3,
      att 1 = AttemptResult.fail m1 → att 2 = AttemptResult.fail m2 →
      att 3 = AttemptResult.fail m3 →
      (downloadRangeWithRetry att start stop p n).result =
        Except.error (retryFailureMessage p n m3) ∧
      (downloadRangeWithRetry att start stop p n).attemptsMade = MAX_RETRIES ∧
      (downloadRangeWithRetry att start stop p n).delays =
        [RETRY_DELAY_MS, RETRY_DELAY_MS * 2]) := by
  refine ⟨?_, ?_, ?_⟩
  · unfold downloadRangeWithRetry MAX_RETRIES
    cases h1 : att 1 <;> cases h2 : att 2 <;> cases h3 : att 3 <;>
      simp [retryAux, h1, h2, h3]
  · intro k d hk1 hk3 hfail hok
    have hk : k = 1 ∨ k = 2 ∨ k = 3 := by
      unfold MAX_RETRIES at hk3; omega
    rcases hk with rfl | rfl | rfl
    · refine ⟨?_, ?_, ?_, ?_⟩ <;>
        simp [downloadRangeWithRetry, retryAux, MAX_RETRIES, hok]
    · obtain ⟨m1, hm1⟩ := hfail 1 (by omega) (by omega)
      refine ⟨?_, ?_, ?_, ?_⟩ <;>
        simp [downloadRangeWithRetry, retryAux, MAX_RETRIES, hok, hm1,
          List.range_succ, RETRY_DELAY_MS]
    · obtain ⟨m1, hm1⟩ := hfail 1 (by omega) (by omega)
      obtain ⟨m2, hm2⟩ := hfail 2 (by omega) (by omega)
      refine ⟨?_, ?_, ?_, ?_⟩ <;>
        simp [downloadRangeWithRetry, retryAux, MAX_RETRIES, hok, hm1, hm2,
          List.range_succ, RETRY_DELAY_MS]
  · intro m1 m2 m3 hm1 hm2 hm3
    refine ⟨?_, ?_, ?_⟩ <;>
      simp [downloadRangeWithRetry, retryAux, MAX_RETRIES, hm1, hm2, hm3,
        RETRY_DELAY_MS]

theorem downloadRangeWithRetry_spec_witness :
    ((downloadRangeWithRetry
        (fun j => if j = 3 then AttemptResult.ok [7] else AttemptResult.fail "boom")
        0 9 1 4).result = Except.ok [7] ∧
      (downloadRangeWithRetry
        (fun j => if j = 3 then AttemptResult.ok [7] else AttemptResult.fail "boom")
        0 9 1 4).attemptsMade = 3) ∧
    (downloadRangeWithRetry (fun _ => AttemptResult.fail "down") 0 9 1 4).result =
      Except.error (retryFailureMessage 1 4 "down") := by
  constructor
  · have h := (downloadRangeWithRetry_spec
      (fun j => if j = 3 then AttemptResult.ok [7] else AttemptResult.fail "boom")
      0 9 1 4).2.1 3 [7] (by norm_num) (by norm_num [MAX_RETRIES])
      (fun j h1 h2 => ⟨"boom", by
        have hj : j = 1 ∨ j = 2 := by omega
        rcases hj with rfl | rfl <;> rfl⟩)
      (by rfl)
    exact ⟨h.1, h.2.1⟩
  · exact ((downloadRangeWithRetry_spec (fun _ => AttemptResult.fail "down")
      0 9 1 4).2.2 "down" "down" "down" rfl rfl rfl).1

/-! ### String and POSIX path primitives

Executable counterparts of the JS string/path operations used by the file
server, written over `List Char` so the kernel can evaluate them on
concrete inputs. -/

/-- JS `s.startsWith(pre)`. -/
def strStartsWith (s pre : String) : Bool := pre.data.isPrefixOf s.data

/-- JS `s.includes(pat)`: some suffix of `s` begins with `pat`. -/
def strIncludes (s pat : String) : Bool :=
  s.data.tails.any fun t => pat.data.isPrefixOf t

/-- Whitespace for JS `trim` (the characters relevant here). -/
def isSpaceChar (c : Char) : Bool := c = ' ' || c = '\t' || c = '\n' || c = '\r'

/-- JS `s.trim()`. -/
def strTrim (s : String) : String :=
  String.mk (((s.data.dropWhile isSpaceChar).reverse.dropWhile isSpaceChar).reverse)

/-- JS `s.split('/')` on the character list: `""` splits to `[""]`,
a leading `/` yields a leading empty segment, etc. -/
def splitSegs : List Char → List (List Char)
  | [] => [[]]
  | c :: rest =>
    if c = '/' then [] :: splitSegs rest
    else
      match splitSegs rest with
      | [] => [[c]]
      | seg :: segs => (c :: seg) :: segs

/-- Join segments with `/` (inverse of `splitSegs` up to normalization). -/
def joinSegs : List (List Char) → List Char
  | [] => []
  | [s] => s
  | s :: rest => s ++ '/' :: joinSegs rest

/-- Segment processing of `path.posix.normalize`: empty and `.` segments are
dropped; `..` pops the last kept segment when there is one (and it is not
itself `..`), is dropped at the root of an absolute path, and is kept for a
relative path. -/
def normSegs (isAbs : Bool) : List (List Char) → List (List Char) → List (List Char)
  | acc, [] => acc
  | acc, seg :: rest =>
    if seg = [] ∨ seg = ['.'] then normSegs isAbs acc rest
    else if seg = ['.', '.'] then
      if acc ≠ [] ∧ acc.getLast? ≠ some ['.', '.'] then normSegs isAbs acc.dropLast rest
      else if isAbs then normSegs isAbs acc rest
      else normSegs isAbs (acc ++ [['.', '.']]) rest
    else normSegs isAbs (acc ++ [seg]) rest

/-- `path.posix.resolve('/', path.posix.normalize(p))` for an absolute input
`p` (one starting with `/`): full `.`/`..`/duplicate-slash normalization with
no trailing slash; the result always starts with `/`. -/
def posixResolveAbs (p : String) : String :=
  String.mk ('/' :: joinSegs (normSegs true [] (splitSegs p.data)))

/-- `path.posix.normalize(p)` (trailing-slash preservation is not modelled;
it affects neither emptiness nor a leading `..`). -/
def posixNormalize (p : String) : String :=
  let isAbs := strStartsWith p "/"
  let joined := joinSegs (normSegs isAbs [] (splitSegs p.data))
  if isAbs then String.mk ('/' :: joined)
  else if joined = [] then "." else String.mk joined

/-- `path.posix.dirname(p)` for a normalized absolute path. -/
def posixDirname (p : String) : String :=
  let segs := (splitSegs p.data).filter (· ≠ [])
  if segs.length ≤ 1 then "/" else String.mk ('/' :: joinSegs segs.dropLast)

/-! ### resolveManagedPath (file-server.ts lines 565-600) -/

/-- Successful result of `resolveManagedPath`. -/
structure ResolvedPath where
  absolute : String
  root : String
  parent : Option String
deriving Repr, DecidableEq

/-- `computeParent(root, absolute)`; `none` models the `null` parent of a
root itself. -/
def computeParent (root absolute : String) : Option String :=
  if absolute = root then none
  else
    let candidate := posixDirname absolute
    if candidate.length < root.length then some root
    else if ¬strStartsWith candidate root then some root
    else some candidate

/-- `resolveManagedPath(rawPath, options)`: trim the input, fall back to the
first managed root when allowed, prefix `/` when missing, resolve to a
normalized absolute path, and accept exactly when some configured root is
`/`, equals the path, or prefixes it followed by `/`. -/
def resolveManagedPath (managedRoots : List String) (rawPath : Option String)
    (allowRootFallback : Bool) : Except String ResolvedPath :=
  let trimmed := strTrim (rawPath.getD "")
  let candidate : Option String :=
    if trimmed ≠ "" then some trimmed
    else if allowRootFallback then managedRoots.head? else none
  match candidate with
  | none => Except.error "Path is required"
  | some c =>
    let normalizedInput := if strStartsWith c "/" then c else "/" ++ c
    let absolutePath := posixResolveAbs normalizedInput
    match managedRoots.find? (fun root =>
        root == "/" || absolutePath == root ||
          strStartsWith absolutePath (root ++ "/")) with
    | some root =>
      Except.ok { absolute := absolutePath, root := root
                  parent := computeParent root absolutePath }
    | none => Except.error "Path is outside managed roots"

/-- The normalized absolute resolution of a (trimmed, slash-prefixed) input,
as computed inside `resolveManagedPath`. -/
def pathAbs (p : String) : String :=
  posixResolveAbs (if strStartsWith (strTrim p) "/" then strTrim p
    else "/" ++ strTrim p)

/-- C5: for a nonempty input, `resolveManagedPath` accepts exactly those
paths whose normalized absolute resolution equals a configured root, lies
strictly beneath one (`root ++ "/"` prefix), or when a configured root is
`/`; every other input — in particular every `../` escape out of all roots —
fails with `Path is outside managed roots`. -/
theorem resolveManagedPath_correct (managedRoots : List String) (p : String)
    (fb : Bool) (hp : strTrim p ≠ "") :
    ((∃ root ∈ managedRoots,
        root = "/" ∨ pathAbs p = root ∨
          strStartsWith (pathAbs p) (root ++ "/") = true) ↔
      (∃ res, resolveManagedPath managedRoots (some p) fb = Except.ok res ∧
        res.absolute = pathAbs p ∧ res.root ∈ managedRoots ∧
        (res.root = "/" ∨ res.absolute = res.root ∨
          strStartsWith res.absolute (res.root ++ "/") = true))) ∧
    ((∀ root ∈ managedRoots,
        ¬(root = "/" ∨ pathAbs p = root ∨
          strStartsWith (pathAbs p) (root ++ "/") = true)) →
      resolveManagedPath managedRoots (some p) fb =
        Except.error "Path is outside managed roots") := by
  unfold resolveManagedPath
  simp only [Option.getD_some, hp, if_true, ne_eq, not_false_iff, if_pos]
  cases hf : managedRoots.find? (fun root =>
      root == "/" ||
        posixResolveAbs (if strStartsWith (strTrim p) "/" then strTrim p
          else "/" ++ strTrim p) == root ||
        strStartsWith (posixResolveAbs (if strStartsWith (strTrim p) "/" then strTrim p
          else "/" ++ strTrim p)) (root ++ "/")) with
  | none =>
    rw [List.find?_eq_none] at hf
    constructor
    · constructor
      · rintro ⟨root, hmem, hroot⟩
        exfalso
        have := hf root hmem
        simp only [Bool.or_eq_true, beq_iff_eq, not_or] at this
        unfold pathAbs at hroot
        tauto
      · rintro ⟨res, hres, -⟩
        simp at hres
    · intro _
      simp
  | some root =>
    have hmem := List.mem_of_find?_eq_some hf
    have hpred := List.find?_some hf
    simp only [Bool.or_eq_true, beq_iff_eq] at hpred
    constructor
    · constructor
      · intro _
        exact ⟨_, rfl, by simp [pathAbs], by simpa using hmem,
          by simp only [pathAbs]; tauto⟩
      · intro _
        refine ⟨root, hmem, ?_⟩
        simp only [pathAbs]
        tauto
    · intro hall
      exfalso
      apply hall root hmem
      simp only [pathAbs]
      tauto

theorem resolveManagedPath_correct_witness :
    (strTrim "/data/../etc/passwd" ≠ "" ∧
      resolveManagedPath ["/data"] (some "/data/../etc/passwd") false =
        Except.error "Path is outside managed roots") ∧
    (strTrim "/data/world" ≠ "" ∧
      ∃ res, resolveManagedPath ["/data"] (some "/data/world") false = Except.ok res ∧
        res.absolute = pathAbs "/data/world" ∧ res.root ∈ ["/data"] ∧
        (res.root = "/" ∨ res.absolute = res.root ∨
          strStartsWith res.absolute (res.root ++ "/") = true)) ∧
    (strTrim "/anything/../x" ≠ "" ∧
      ∃ res, resolveManagedPath ["/"] (some "/anything/../x") true = Except.ok res ∧
        res.absolute = pathAbs "/anything/../x" ∧ res.root ∈ ["/"] ∧
        (res.root = "/" ∨ res.absolute = res.root ∨
          strStartsWith res.absolute (res.root ++ "/") = true)) := by
  refine ⟨⟨by decide, ?_⟩, ⟨by decide, ?_⟩, ⟨by decide, ?_⟩⟩
  · exact (resolveManagedPath_correct ["/data"] "/data/../etc/passwd" false
      (by decide)).2 (by decide)
  · exact (resolveManagedPath_correct ["/data"] "/data/world" false
      (by decide)).1.mp ⟨"/data", by decide, by decide⟩
  · exact (resolveManagedPath_correct ["/"] "/anything/../x" true
      (by decide)).1.mp ⟨"/", by decide, by decide⟩

/-! ### handleRestore (file-server.ts lines 1786-1990)

The handler's external effects are collected in a `RestoreEnv`: whether the
AWS credentials are configured (`createS3Client` throws otherwise), the HEAD
probe outcome and reported size, the size of the temp file after download,
and the tar extraction outcome. The model records which network operations
were performed. -/

/-- The `RestoreResult` JSON payload of a successful restore. -/
structure RestoreResult where
  success : Bool
  restored_from : String
  restored_to : String
  size : Nat
  note : Option String
deriving Repr, DecidableEq

/-- Network operations a restore can perform, in order. -/
inductive NetOp where
  | head
  | getMultipart
  | getSimple
deriving Repr, DecidableEq

/-- External outcomes consumed by `handleRestore`. -/
structure RestoreEnv where
  credsOk : Bool
  headOk : Bool
  headSize : Nat
  downloadedSize : Nat
  tarExit : Nat
  tarStderr : String
deriving Repr, DecidableEq

/-- Observable outcome of `handleRestore`. -/
structure RestoreModel where
  status : Nat
  error : Option String
  result : Option RestoreResult
  netOps : List NetOp
  sizeWarning : Bool
deriving Repr, DecidableEq

/-- `handleRestore(pathname, backupFilename)`: normalize the directory;
create the S3 client (throws into the catch when credentials are missing);
reject keys containing `..` or outside `backups/` with a 400 before any
network call; HEAD-probe the object, 404 when absent; download (multipart
when the probed size reaches `LARGE_FILE_THRESHOLD`, else single-shot);
compare the downloaded size against the probed size, logging (not failing) on
mismatch; extract, a non-zero tar exit failing the restore via the catch
(500); on success answer 200 with the downloaded size. -/
def handleRestore (pathname backupFilename : String) (env : RestoreEnv) : RestoreModel :=
  let directory := if strStartsWith pathname "/" then pathname else "/" ++ pathname
  if ¬env.credsOk then
    { status := 500,
      error := some "Restore failed: Missing AWS credentials in environment",
      result := none, netOps := [], sizeWarning := false }
  else if strIncludes backupFilename ".." ∨ ¬strStartsWith backupFilename "backups/" then
    { status := 400, error := some "Invalid backup filename",
      result := none, netOps := [], sizeWarning := false }
  else if ¬env.headOk then
    { status := 404, error := some ("Backup not found: " ++ backupFilename),
      result := none, netOps := [NetOp.head], sizeWarning := false }
  else
    let fileSize := env.headSize
    let ops := [NetOp.head,
      if LARGE_FILE_THRESHOLD ≤ fileSize then NetOp.getMultipart else NetOp.getSimple]
    let warn := env.downloadedSize ≠ fileSize
    if env.tarExit ≠ 0 then
      let msg := "Restore failed: tar extraction failed with exit code "
        ++ natToString env.tarExit ++ ": " ++ env.tarStderr
      { status := 500, error := some msg,
        result := none, netOps := ops, sizeWarning := warn }
    else
      let res : RestoreResult :=
        { success := true, restored_from := backupFilename,
          restored_to := directory, size := env.downloadedSize,
          note := some "complete restore" }
      { status := 200, error := none, result := some res,
        netOps := ops, sizeWarning := warn }

/-- C4: with configured credentials, a backup key containing `..` or not
starting with `backups/` is rejected with a 400 validation error before any
network call; a well-formed key whose HEAD probe fails yields a 404 naming
the key, distinct from the 500 of later failures such as extraction. -/
theorem handleRestore_classification (pathname key : String) (env : RestoreEnv)
    (hcreds : env.credsOk = true) :
    ((strIncludes key ".." = true ∨ strStartsWith key "backups/" = false) →
      handleRestore pathname key env =
        { status := 400, error := some "Invalid backup filename", result := none
          netOps := [], sizeWarning := false }) ∧
    (strIncludes key ".." = false → strStartsWith key "backups/" = true →
      env.headOk = false →
      handleRestore pathname key env =
        { status := 404, error := some ("Backup not found: " ++ key), result := none
          netOps := [NetOp.head], sizeWarning := false }) ∧
    (strIncludes key ".." = false → strStartsWith key "backups/" = true →
      env.headOk = true → env.tarExit ≠ 0 →
      (handleRestore pathname key env).status = 500 ∧
      (handleRestore pathname key env).result = none) := by
  refine ⟨fun hbad => ?_, fun h1 h2 h3 => ?_, fun h1 h2 h3 h4 => ?_⟩
  · unfold handleRestore
    rcases hbad with hbad | hbad <;> simp [hcreds, hbad]
  · unfold handleRestore
    simp [hcreds, h1, h2, h3]
  · unfold handleRestore
    simp [hcreds, h1, h2, h3, h4]

theorem handleRestore_classification_witness :
    (handleRestore "/data/world" "../etc/passwd"
        { credsOk := true, headOk := true, headSize := 10, downloadedSize := 10
          tarExit := 0, tarStderr := "" } =
      { status := 400, error := some "Invalid backup filename", result := none
        netOps := [], sizeWarning := false }) ∧
    (handleRestore "/data/world" "backups/missing.tar.gz"
        { credsOk := true, headOk := false, headSize := 0, downloadedSize := 0
          tarExit := 0, tarStderr := "" } =
      { status := 404, error := some ("Backup not found: " ++ "backups/missing.tar.gz")
        result := none, netOps := [NetOp.head], sizeWarning := false }) ∧
    (handleRestore "/data/world" "backups/bad.tar.gz"
        { credsOk := true, headOk := true, headSize := 5, downloadedSize := 5
          tarExit := 2, tarStderr := "boom" }).status = 500 := by
  refine ⟨?_, ?_, ?_⟩
  · exact (handleRestore_classification "/data/world" "../etc/passwd" _ rfl).1
      (Or.inl (by decide))
  · exact (handleRestore_classification "/data/world" "backups/missing.tar.gz" _ rfl).2.1
      (by decide) (by decide) rfl
  · exact ((handleRestore_classification "/data/world" "backups/bad.tar.gz" _ rfl).2.2
      (by decide) (by decide) rfl (by decide)).1

/-- C9: when the download completes but the downloaded size differs from the
probed size, the mismatch only raises the logged warning; the restore still
proceeds to extraction, succeeds with the actual downloaded size in the
result when tar exits 0, and fails (500, no result) exactly when extraction
fails. -/
theorem handleRestore_size_mismatch_nonfatal (pathname key : String)
    (env : RestoreEnv) (hcreds : env.credsOk = true)
    (hkey1 : strIncludes key ".." = false)
    (hkey2 : strStartsWith key "backups/" = true)
    (hhead : env.headOk = true)
    (hmis : env.downloadedSize ≠ env.headSize) :
    (handleRestore pathname key env).sizeWarning = true ∧
    (env.tarExit = 0 →
      (handleRestore pathname key env).status = 200 ∧
      (handleRestore pathname key env).result = some
        { success := true, restored_from := key
          restored_to := if strStartsWith pathname "/" then pathname else "/" ++ pathname
          size := env.downloadedSize, note := some "complete restore" }) ∧
    (env.tarExit ≠ 0 →
      (handleRestore pathname key env).status = 500 ∧
      (handleRestore pathname key env).result = none) := by
  refine ⟨?_, fun hz => ?_, fun hz => ?_⟩
  · unfold handleRestore
    by_cases hz : env.tarExit = 0 <;> simp [hcreds, hkey1, hkey2, hhead, hmis, hz]
  · unfold handleRestore
    simp [hcreds, hkey1, hkey2, hhead, hz]
  · unfold handleRestore
    simp [hcreds, hkey1, hkey2, hhead, hz]

theorem handleRestore_size_mismatch_nonfatal_witness :
    ((handleRestore "/data/world" "backups/w.tar.gz"
        { credsOk := true, headOk := true, headSize := 100, downloadedSize := 90
          tarExit := 0, tarStderr := "" }).sizeWarning = true ∧
      (handleRestore "/data/world" "backups/w.tar.gz"
        { credsOk := true, headOk := true, headSize := 100, downloadedSize := 90
          tarExit := 0, tarStderr := "" }).status = 200 ∧
      (handleRestore "/data/world" "backups/w.tar.gz"
        { credsOk := true, headOk := true, headSize := 100, downloadedSize := 90
          tarExit := 0, tarStderr := "" }).result = some
        { success := true, restored_from := "backups/w.tar.gz"
          restored_to := "/data/world", size := 90, note := some "complete restore" }) ∧
    (handleRestore "/data/world" "backups/w.tar.gz"
        { credsOk := true, headOk := true, headSize := 100, downloadedSize := 90
          tarExit := 1, tarStderr := "eof" }).status = 500 := by
  constructor
  · have h := handleRestore_size_mismatch_nonfatal "/data/world" "backups/w.tar.gz"
      { credsOk := true, headOk := true, headSize := 100, downloadedSize := 90
        tarExit := 0, tarStderr := "" } rfl (by decide) (by decide) rfl (by decide)
    exact ⟨h.1, (h.2.1 rfl).1, (h.2.1 rfl).2⟩
  · exact ((handleRestore_size_mismatch_nonfatal "/data/world" "backups/w.tar.gz"
      { credsOk := true, headOk := true, headSize := 100, downloadedSize := 90
        tarExit := 1, tarStderr := "eof" } rfl (by decide) (by decide) rfl
      (by decide)).2.2 (by decide)).1

/-! ### Maintenance gating and the modpack job registry
(file-server.ts lines 555-563, 720-769, 851-939) -/

/-- `ModpackJobStatus`. -/
inductive ModpackStatus where
  | pending
  | downloading
  | installing
  | completed
  | failed
deriving Repr, DecidableEq

/-- `ModpackJobResult` (the free-form `metadata` record is not modelled). -/
structure ModpackJobResult where
  loader : Option String
  minecraftVersion : Option String
  profileSuggestion : Option String
  packName : Option String
  filesInstalled : Nat
  overridesApplied : Bool
deriving Repr, DecidableEq

/-- `ModpackJob` (the advisory `progress` record is not modelled). -/
structure ModpackJob where
  id : String
  source : String
  status : ModpackStatus
  startedAt : Nat
  updatedAt : Nat
  error : Option String
  result : Option ModpackJobResult
deriving Repr, DecidableEq

/-- The message thrown by `ensureMaintenanceModeEnabled`. -/
def maintenanceErrorMessage : String :=
  "Maintenance mode must be enabled before installing a modpack. Stop the server and enter maintenance mode from the Mineflare dashboard."

/-- `ensureMaintenanceModeEnabled()`; the `maintenanceMode` flag models the
externally-owned `MAINTENANCE_MODE === 'true'` environment read. -/
def ensureMaintenanceModeEnabled (maintenanceMode : Bool) : Except String Unit :=
  if maintenanceMode then Except.ok () else Except.error maintenanceErrorMessage

/-- The catch-clause status mapping shared by the mutating fs handlers:
`message.includes('maintenance') ? 400 : message.includes('outside') ? 403 : 500`. -/
def mutationErrorStatus (message : String) : Nat :=
  if strIncludes message "maintenance" then 400
  else if strIncludes message "outside" then 403
  else 500

theorem maintenance_msg_status : mutationErrorStatus maintenanceErrorMessage = 400 := by
  decide

theorem outside_msg_status : mutationErrorStatus "Path is outside managed roots" = 403 := by
  decide

/-- Observable outcome of a mutating filesystem handler: HTTP status, error
payload, and whether the filesystem mutation was performed. -/
structure FsResponse where
  status : Nat
  error : Option String
  mutated : Bool
deriving Repr, DecidableEq

/-- `handleWriteFile`: maintenance gate first, then path resolution, then the
write (`mkdir -p` + write, modelled as the `mutated` flag). -/
def handleWriteFile (maintenanceMode : Bool) (managedRoots : List String)
    (rawPath : Option String) : FsResponse :=
  match ensureMaintenanceModeEnabled maintenanceMode with
  | Except.error m => { status := mutationErrorStatus m, error := some m, mutated := false }
  | Except.ok () =>
    match resolveManagedPath managedRoots rawPath false with
    | Except.error m => { status := mutationErrorStatus m, error := some m, mutated := false }
    | Except.ok _ => { status := 200, error := none, mutated := true }

/-- `handleDeletePath`: same gate and resolution, then `rm -rf`. -/
def handleDeletePath (maintenanceMode : Bool) (managedRoots : List String)
    (rawPath : Option String) : FsResponse :=
  match ensureMaintenanceModeEnabled maintenanceMode with
  | Except.error m => { status := mutationErrorStatus m, error := some m, mutated := false }
  | Except.ok () =>
    match resolveManagedPath managedRoots rawPath false with
    | Except.error m => { status := mutationErrorStatus m, error := some m, mutated := false }
    | Except.ok _ => { status := 200, error := none, mutated := true }

/-- `handleCreateDirectory`: maintenance gate, then the body-path presence
check (400 when missing/blank), then resolution and `mkdir -p`. -/
def handleCreateDirectory (maintenanceMode : Bool) (managedRoots : List String)
    (bodyPath : Option String) : FsResponse :=
  match ensureMaintenanceModeEnabled maintenanceMode with
  | Except.error m => { status := mutationErrorStatus m, error := some m, mutated := false }
  | Except.ok () =>
    match bodyPath with
    | none => { status := 400, error := some "Directory path is required", mutated := false }
    | some rawPath =>
      if strTrim rawPath = "" then
        { status := 400, error := some "Directory path is required", mutated := false }
      else
        match resolveManagedPath managedRoots (some rawPath) false with
        | Except.error m => { status := mutationErrorStatus m, error := some m, mutated := false }
        | Except.ok _ => { status := 200, error := none, mutated := true }

/-- Observable outcome of `handleModrinthInstall` up to the job launch. -/
structure InstallStartResult where
  status : Nat
  error : Option String
  jobs : List (String × ModpackJob)
  launched : Bool
deriving Repr, DecidableEq

/-- `handleModrinthInstall` (body already JSON-parsed): URL presence check,
then the maintenance gate; only past both is a job generated, inserted into
`modpackJobs`, and the background task launched. `newJobId` stands for the
random `generateJobId('modrinth')`. -/
def handleModrinthInstall (maintenanceMode : Bool) (payloadUrl : Option String)
    (jobs : List (String × ModpackJob)) (newJobId : String) (now : Nat) :
    InstallStartResult :=
  let url := strTrim (payloadUrl.getD "")
  if url = "" then
    { status := 400, error := some "Missing Modrinth pack URL", jobs := jobs
      launched := false }
  else
    match ensureMaintenanceModeEnabled maintenanceMode with
    | Except.error m => { status := 400, error := some m, jobs := jobs, launched := false }
    | Except.ok () =>
      let job : ModpackJob :=
        { id := newJobId, source := "modrinth", status := ModpackStatus.pending,
          startedAt := now, updatedAt := now, error := none, result := none }
      { status := 200, error := none, jobs := (newJobId, job) :: jobs, launched := true }

/-- C6: with the external maintenance flag off, write, delete,
create-directory and package-install all fail with status 400 carrying the
maintenance message — for every path, valid or not, so the gate is
independent of path validation — and the install neither touches the job
registry nor launches background work; with the flag on the same operations
proceed to path validation (succeeding on a resolvable path, 403 on a path
outside the roots). -/
theorem maintenance_gate (managedRoots : List String)
    (rawPath bodyPath url : Option String) (jobs : List (String × ModpackJob))
    (newId : String) (now : Nat) :
    (handleWriteFile false managedRoots rawPath =
      { status := 400, error := some maintenanceErrorMessage, mutated := false }) ∧
    (handleDeletePath false managedRoots rawPath =
      { status := 400, error := some maintenanceErrorMessage, mutated := false }) ∧
    (handleCreateDirectory false managedRoots bodyPath =
      { status := 400, error := some maintenanceErrorMessage, mutated := false }) ∧
    (strTrim (url.getD "") ≠ "" →
      handleModrinthInstall false url jobs newId now =
        { status := 400, error := some maintenanceErrorMessage, jobs := jobs
          launched := false }) ∧
    ((handleModrinthInstall false url jobs newId now).jobs = jobs ∧
      (handleModrinthInstall false url jobs newId now).launched = false) ∧
    (∀ res, resolveManagedPath managedRoots rawPath false = Except.ok res →
      handleWriteFile true managedRoots rawPath =
          { status := 200, error := none, mutated := true } ∧
        handleDeletePath true managedRoots rawPath =
          { status := 200, error := none, mutated := true }) ∧
    (resolveManagedPath managedRoots rawPath false =
        Except.error "Path is outside managed roots" →
      handleWriteFile true managedRoots rawPath =
        { status := 403, error := some "Path is outside managed roots"
          mutated := false }) := by
  have hm400 := maintenance_msg_status
  have ho403 := outside_msg_status
  refine ⟨?_, ?_, ?_, fun hurl => ?_, ?_, fun res hres => ?_, fun hres => ?_⟩
  · simp [handleWriteFile, ensureMaintenanceModeEnabled, hm400]
  · simp [handleDeletePath, ensureMaintenanceModeEnabled, hm400]
  · simp [handleCreateDirectory, ensureMaintenanceModeEnabled, hm400]
  · simp [handleModrinthInstall, ensureMaintenanceModeEnabled, hurl]
  · by_cases hurl : strTrim (url.getD "") = "" <;>
      simp [handleModrinthInstall, ensureMaintenanceModeEnabled, hurl]
  · constructor <;>
      simp [handleWriteFile, handleDeletePath, ensureMaintenanceModeEnabled, hres]
  · simp [handleWriteFile, ensureMaintenanceModeEnabled, hres, ho403]

theorem maintenance_gate_witness :
    (handleWriteFile false ["/data"] (some "/data/server.properties") =
      { status := 400, error := some maintenanceErrorMessage, mutated := false }) ∧
    (handleWriteFile false ["/data"] (some "/data/../etc/passwd") =
      { status := 400, error := some maintenanceErrorMessage, mutated := false }) ∧
    (strTrim ((some "https://modrinth.com/modpack/x").getD "") ≠ "" ∧
      handleModrinthInstall false (some "https://modrinth.com/modpack/x") [] "j1" 5 =
        { status := 400, error := some maintenanceErrorMessage, jobs := []
          launched := false }) ∧
    (handleWriteFile true ["/data"] (some "/data/server.properties") =
      { status := 200, error := none, mutated := true }) ∧
    (handleWriteFile true ["/data"] (some "/data/../etc/passwd") =
      { status := 403, error := some "Path is outside managed roots"
        mutated := false }) := by
  refine ⟨?_, ?_, ⟨by decide, ?_⟩, ?_, ?_⟩
  · exact (maintenance_gate ["/data"] (some "/data/server.properties") none none [] "j1" 5).1
  · exact (maintenance_gate ["/data"] (some "/data/../etc/passwd") none none [] "j1" 5).1
  · exact (maintenance_gate ["/data"] none none (some "https://modrinth.com/modpack/x")
      [] "j1" 5).2.2.2.1 (by decide)
  · exact ((maintenance_gate ["/data"] (some "/data/server.properties") none none [] "j1"
      5).2.2.2.2.2.1
      { absolute := "/data/server.properties", root := "/data", parent := some "/data" }
      rfl).1
  · exact (maintenance_gate ["/data"] (some "/data/../etc/passwd") none none [] "j1"
      5).2.2.2.2.2.2 rfl

/-! ### verifyHash and the Modrinth install loop
(file-server.ts lines 1334-1340, 1342-1377, 1499-1517) -/

/-- JS `toLowerCase()` (character-wise, as applied to hex digests). -/
def strToLower (s : String) : String := String.mk (s.data.map Char.toLower)

/-- The `sha512` half of `verifyHash`. -/
def verifySha512Part (sha512 : List Nat → String) (buffer : List Nat)
    (hs : List (String × String)) (label : String) : Except String Unit :=
  match hs.lookup "sha512" with
  | some digest =>
    if sha512 buffer ≠ strToLower digest then
      Except.error ("SHA-512 mismatch for " ++ label)
    else Except.ok ()
  | none => Except.ok ()

/-- `verifyHash(buffer, hashes, label)`: the hash record is an association
list from algorithm name to hex digest; the SHA-1/SHA-512 digest functions
(crypto.subtle, an external collaborator) are parameters producing lowercase
hex. Only the `sha1` and `sha512` entries of the record are consulted. -/
def verifyHash (sha1 sha512 : List Nat → String) (buffer : List Nat)
    (hashes : Option (List (String × String))) (label : String) :
    Except String Unit :=
  match hashes with
  | none => Except.ok ()
  | some hs =>
    match hs.lookup "sha1" with
    | some digest =>
      if sha1 buffer ≠ strToLower digest then
        Except.error ("SHA-1 mismatch for " ++ label)
      else verifySha512Part sha512 buffer hs label
    | none => verifySha512Part sha512 buffer hs label

/-- One entry of `ModrinthManifest.files` (`env.server` as `envServer`). -/
structure ModrinthFileEntry where
  path : Option String
  downloads : List String
  hashes : Option (List (String × String))
  envServer : Option String
deriving Repr, DecidableEq

/-- External collaborators of the install loop: the digest functions and the
bytes downloaded from a URL. -/
structure InstallCtx where
  sha1 : List Nat → String
  sha512 : List Nat → String
  fetch : String → List Nat

/-- The `.replace(/\\/g, '/')` normalization of the manifest path. -/
def replaceBackslashes (s : String) : String :=
  String.mk (s.data.map fun c => if c = '\\' then '/' else c)

/-- `sanitizeRelativePath(relPath)`: `path.posix.normalize` then strip
leading slashes (`.replace(/^\/+/g, '')`); empty or `..`-leading results
throw `Unsafe path in manifest`. -/
def sanitizeRelativePath (relPath : String) : Except String String :=
  let normalized := String.mk ((posixNormalize relPath).data.dropWhile (· = '/'))
  if normalized = "" ∨ strStartsWith normalized ".." then
    Except.error ("Unsafe path in manifest: " ++ relPath)
  else Except.ok normalized

/-- The pre-sanitization path of entry `index`:
`(fileEntry.path || 'mods/file-(index).jar').replace(/\\/g, '/')`
(JS `||` falls back on an empty string as well). -/
def rawEntryPath (e : ModrinthFileEntry) (index : Nat) : String :=
  replaceBackslashes (match e.path with
    | some p => if p = "" then "mods/file-" ++ natToString index ++ ".jar" else p
    | none => "mods/file-" ++ natToString index ++ ".jar")

/-- The loop body of `installModrinthFiles` for one entry: `none` when the
entry is server-unsupported and skipped; otherwise the sanitize / download-URL
/ fetch / hash-verification outcome. The destination join
`path.posix.join('/data', relPath)` affects neither the outcome nor the
counters and is elided. -/
def processEntry (ctx : InstallCtx) (e : ModrinthFileEntry) (index : Nat) :
    Option (Except String Unit) :=
  if e.envServer = some "unsupported" then none
  else some (
    match sanitizeRelativePath (rawEntryPath e index) with
    | Except.error m => Except.error m
    | Except.ok relPath =>
      match e.downloads.head? with
      | none => Except.error ("Missing download URL for " ++ relPath)
      | some url => verifyHash ctx.sha1 ctx.sha512 (ctx.fetch url) e.hashes relPath)

/-- The loop of `installModrinthFiles`, threading the 0-based entry index and
the `installed` counter (incremented only after `verifyHash` passes); the
first thrown error aborts the whole install. -/
def installFiles (ctx : InstallCtx) :
    List ModrinthFileEntry → Nat → Nat → Except String Nat
  | [], _, installed => Except.ok installed
  | e :: rest, index, installed =>
    match processEntry ctx e index with
    | none => installFiles ctx rest (index + 1) installed
    | some (Except.error m) => Except.error m
    | some (Except.ok ()) => installFiles ctx rest (index + 1) (installed + 1)

/-- The job-finishing tail of `processModrinthJob` combined with the catch in
`handleModrinthInstall`: an error marks the job failed with the message and
leaves `result` untouched; success marks it completed with a result whose
`filesInstalled` is the returned count (`mk` supplies the loader/pack
metadata of the successful path). -/
def finishModrinthJob (job : ModpackJob) (mk : Nat → ModpackJobResult)
    (outcome : Except String Nat) : ModpackJob :=
  match outcome with
  | Except.error m => { job with status := ModpackStatus.failed, error := some m }
  | Except.ok n => { job with status := ModpackStatus.completed, result := some (mk n) }

/-- Entry `e` at `index` does not abort the install: it is skipped or passes. -/
def entryPasses (ctx : InstallCtx) (e : ModrinthFileEntry) (index : Nat) : Prop :=
  ∀ m, processEntry ctx e index ≠ some (Except.error m)

theorem installFiles_error_propagates (ctx : InstallCtx)
    (post : List ModrinthFileEntry) (m : String) :
    ∀ (pre : List ModrinthFileEntry) (e : ModrinthFileEntry) (start installed : Nat),
      (∀ i (h : i < pre.length), entryPasses ctx (pre.get ⟨i, h⟩) (start + i)) →
      processEntry ctx e (start + pre.length) = some (Except.error m) →
      installFiles ctx (pre ++ e :: post) start installed = Except.error m := by
  intro pre
  induction pre with
  | nil =>
    intro e start installed _ he
    simp only [List.length_nil, Nat.add_zero] at he
    simp only [List.nil_append, installFiles, he]
  | cons p pre ih =>
    intro e start installed hpre he
    have hp := hpre 0 (by simp)
    simp only [List.get] at hp
    have hshift : ∀ i (h : i < pre.length),
        entryPasses ctx (pre.get ⟨i, h⟩) (start + 1 + i) := by
      intro i h
      have := hpre (i + 1) (by simpa using Nat.succ_lt_succ h)
      simpa [Nat.add_assoc, Nat.add_comm 1 i] using this
    have he' : processEntry ctx e (start + 1 + pre.length) =
        some (Except.error m) := by
      have : start + 1 + pre.length = start + (p :: pre).length := by
        simp [Nat.add_assoc, Nat.add_comm 1 pre.length]
      rw [this]; exact he
    simp only [List.cons_append, installFiles]
    cases hpe : processEntry ctx p start with
    | none => exact ih e (start + 1) installed hshift he'
    | some r =>
      cases r with
      | error msg => exact absurd hpe (hp msg)
      | ok u => cases u; exact ih e (start + 1) (installed + 1) hshift he'

/-- C7: for an installed entry supplying a hash record, the downloaded bytes
are checked against each supplied digest the code consults — a `sha1`
mismatch raises the `SHA-1 mismatch` integrity error, a `sha512` mismatch
(with `sha1` absent or passing) the `SHA-512 mismatch` one — and whenever
verification of the entry errors while every earlier entry passed, the whole
install aborts with exactly that message (the loop contains no retry
construct), the job is marked failed carrying it, and the job's `result` —
hence any `filesInstalled` count — stays absent. -/
theorem modrinth_integrity_failure (ctx : InstallCtx)
    (pre post : List ModrinthFileEntry) (e : ModrinthFileEntry)
    (start installed : Nat) (job : ModpackJob) (mk : Nat → ModpackJobResult)
    (relPath url : String) (hs : List (String × String))
    (hpre : ∀ i (h : i < pre.length), entryPasses ctx (pre.get ⟨i, h⟩) (start + i))
    (henv : e.envServer ≠ some "unsupported")
    (hsan : sanitizeRelativePath (rawEntryPath e (start + pre.length)) = Except.ok relPath)
    (hurl : e.downloads.head? = some url)
    (hhs : e.hashes = some hs)
    (hres : job.result = none) :
    (∀ digest, hs.lookup "sha1" = some digest →
      ctx.sha1 (ctx.fetch url) ≠ strToLower digest →
      verifyHash ctx.sha1 ctx.sha512 (ctx.fetch url) e.hashes relPath =
        Except.error ("SHA-1 mismatch for " ++ relPath)) ∧
    (∀ digest, hs.lookup "sha512" = some digest →
      ctx.sha512 (ctx.fetch url) ≠ strToLower digest →
      (∀ d1, hs.lookup "sha1" = some d1 → ctx.sha1 (ctx.fetch url) = strToLower d1) →
      verifyHash ctx.sha1 ctx.sha512 (ctx.fetch url) e.hashes relPath =
        Except.error ("SHA-512 mismatch for " ++ relPath)) ∧
    (∀ m, verifyHash ctx.sha1 ctx.sha512 (ctx.fetch url) e.hashes relPath =
        Except.error m →
      installFiles ctx (pre ++ e :: post) start installed = Except.error m ∧
      (finishModrinthJob job mk
          (installFiles ctx (pre ++ e :: post) start installed)).status =
        ModpackStatus.failed ∧
      (finishModrinthJob job mk
          (installFiles ctx (pre ++ e :: post) start installed)).error = some m ∧
      (finishModrinthJob job mk
          (installFiles ctx (pre ++ e :: post) start installed)).result = none) := by
  refine ⟨fun digest hd hmis => ?_, fun digest hd hmis h1pass => ?_, fun m hverr => ?_⟩
  · unfold verifyHash
    simp [hhs, hd, hmis]
  · unfold verifyHash verifySha512Part
    cases h1 : hs.lookup "sha1" with
    | none => simp [hhs, h1, hd, hmis]
    | some d1 => simp [hhs, h1, hd, hmis, h1pass d1 h1]
  · have hstep : processEntry ctx e (start + pre.length) =
        some (Except.error m) := by
      unfold processEntry
      rw [if_neg henv, hsan]
      simp only [hurl]
      rw [hverr]
    have hmain := installFiles_error_propagates ctx post _ pre e start installed hpre hstep
    refine ⟨hmain, ?_, ?_, ?_⟩ <;> rw [hmain] <;> simp [finishModrinthJob, hres]

theorem modrinth_integrity_failure_witness :
    installFiles
        { sha1 := fun _ => "aa", sha512 := fun _ => "ff", fetch := fun _ => [0] }
        [{ path := some "mods/x.jar", downloads := ["u"],
           hashes := some [("sha1", "bb")], envServer := none }] 0 0 =
      Except.error ("SHA-1 mismatch for " ++ "mods/x.jar") ∧
    (finishModrinthJob
        { id := "m1", source := "modrinth", status := ModpackStatus.pending,
          startedAt := 0, updatedAt := 0, error := none, result := none }
        (fun n => { loader := none, minecraftVersion := none,
                    profileSuggestion := none, packName := none,
                    filesInstalled := n, overridesApplied := false })
        (installFiles
          { sha1 := fun _ => "aa", sha512 := fun _ => "ff", fetch := fun _ => [0] }
          [{ path := some "mods/x.jar", downloads := ["u"],
             hashes := some [("sha1", "bb")], envServer := none }] 0 0)).status =
      ModpackStatus.failed := by
  have h := modrinth_integrity_failure
    { sha1 := fun _ => "aa", sha512 := fun _ => "ff", fetch := fun _ => [0] }
    [] []
    { path := some "mods/x.jar", downloads := ["u"],
      hashes := some [("sha1", "bb")], envServer := none }
    0 0
    { id := "m1", source := "modrinth", status := ModpackStatus.pending,
      startedAt := 0, updatedAt := 0, error := none, result := none }
    (fun n => { loader := none, minecraftVersion := none,
                profileSuggestion := none, packName := none,
                filesInstalled := n, overridesApplied := false })
    "mods/x.jar" "u" [("sha1", "bb")]
    (fun i hi => absurd hi (by simp)) (by decide) rfl rfl rfl rfl
  have hv := h.1 "bb" rfl (by decide)
  have hmain := h.2.2 ("SHA-1 mismatch for " ++ "mods/x.jar") hv
  exact ⟨hmain.1, hmain.2.1⟩

/-! ### Background backup jobs (file-server.ts lines 520-528, 941-993) -/

/-- Backup job statuses. -/
inductive BackupStatus where
  | pending
  | running
  | success
  | failed
deriving Repr, DecidableEq

/-- The `result` of a successful backup job. -/
structure BackupJobResult where
  backup_path : String
  size : Nat
  note : Option String
deriving Repr, DecidableEq

/-- A record of the `backupJobs` registry. -/
structure BackupJob where
  id : String
  directory : String
  status : BackupStatus
  startedAt : Nat
  completedAt : Option Nat
  result : Option BackupJobResult
  error : Option String
deriving Repr, DecidableEq

/-- The JSON answered by `handleBackgroundBackupStart`: `started` is present
only in the new-job response, `completedAt` (echoed as `null` when unset)
only for an existing job. -/
structure BackupStartResponse where
  id : String
  started : Option Bool
  directory : String
  status : BackupStatus
  startedAt : Nat
  completedAt : Option Nat
deriving Repr, DecidableEq

/-- `handleBackgroundBackupStart(pathname, id)`: normalize the directory; an
id already present in the registry is answered from the existing record's
fields with the registry untouched and no task launched; otherwise a fresh
`pending` job is inserted, counted, and `executeBackupJob` is launched
without awaiting (the `Bool` component of the result). -/
def handleBackgroundBackupStart (jobs : List (String × BackupJob))
    (pathname id : String) (now : Nat) :
    BackupStartResponse × List (String × BackupJob) × Bool :=
  let directory := if strStartsWith pathname "/" then pathname else "/" ++ pathname
  match jobs.lookup id with
  | some existing =>
    ({ id := existing.id, started := none, directory := existing.directory,
       status := existing.status, startedAt := existing.startedAt,
       completedAt := existing.completedAt }, jobs, false)
  | none =>
    ({ id := id, started := some true, directory := directory,
       status := BackupStatus.pending, startedAt := now, completedAt := none },
     (id, { id := id, directory := directory, status := BackupStatus.pending,
            startedAt := now, completedAt := none, result := none,
            error := none }) :: jobs,
     true)

/-- C8: starting a backup whose `backup_id` already exists in the registry is
idempotent — the call answers the existing record's fields unmodified, the
registry is returned exactly as it was, and no background work is launched. -/
theorem backgroundBackupStart_idempotent (jobs : List (String × BackupJob))
    (pathname id : String) (now : Nat) (j : BackupJob)
    (h : jobs.lookup id = some j) :
    handleBackgroundBackupStart jobs pathname id now =
      ({ id := j.id, started := none, directory := j.directory, status := j.status,
         startedAt := j.startedAt, completedAt := j.completedAt }, jobs, false) := by
  unfold handleBackgroundBackupStart
  rw [h]

theorem backgroundBackupStart_idempotent_witness :
    handleBackgroundBackupStart
        [("b1", { id := "b1", directory := "/data/world",
                  status := BackupStatus.running, startedAt := 3,
                  completedAt := none, result := none, error := none })]
        "/data/world" "b1" 99 =
      ({ id := "b1", started := none, directory := "/data/world",
         status := BackupStatus.running, startedAt := 3, completedAt := none },
       [("b1", { id := "b1", directory := "/data/world",
                 status := BackupStatus.running, startedAt := 3,
                 completedAt := none, result := none, error := none })],
       false) :=
  backgroundBackupStart_idempotent _ "/data/world" "b1" 99
    { id := "b1", directory := "/data/world", status := BackupStatus.running,
      startedAt := 3, completedAt := none, result := none, error := none } rfl

/-! ### Job status traces (file-server.ts lines 995-1089 and 1091-1144) -/

/-- Statuses written to a backup job record, in order: `pending` at creation,
`running` first thing in `executeBackupJob`'s try, then `success`, or
`failed` from the catch; `pipelineOk` abstracts the tar/stat/upload/cleanup
pipeline outcome. -/
def backupStatusTrace (pipelineOk : Bool) : List BackupStatus :=
  [BackupStatus.pending, BackupStatus.running,
    if pipelineOk then BackupStatus.success else BackupStatus.failed]

/-- Statuses written to a modpack job, in order: `pending` at creation;
`downloading` first thing in `processModrinthJob`'s try; `installing` once
the manifest is parsed and the file loop begins; `completed` at the end; any
exception jumps to `failed` via the catch in `handleModrinthInstall`.
`setupOk` abstracts the temp-directory creation that precedes the try,
`resolveOk` the resolve/download/extract/manifest/reset/overrides stages,
`installOk` the file loop. -/
def modpackStatusTrace (setupOk resolveOk installOk : Bool) : List ModpackStatus :=
  if ¬setupOk then
    [ModpackStatus.pending, ModpackStatus.failed]
  else if ¬resolveOk then
    [ModpackStatus.pending, ModpackStatus.downloading, ModpackStatus.failed]
  else if ¬installOk then
    [ModpackStatus.pending, ModpackStatus.downloading, ModpackStatus.installing,
      ModpackStatus.failed]
  else
    [ModpackStatus.pending, ModpackStatus.downloading, ModpackStatus.installing,
      ModpackStatus.completed]

/-- The forward edges of the backup state machine. -/
def backupStep (a b : BackupStatus) : Prop :=
  (a = BackupStatus.pending ∧ b = BackupStatus.running) ∨
  (a = BackupStatus.running ∧ (b = BackupStatus.success ∨ b = BackupStatus.failed))

/-- Terminal backup statuses. -/
def backupTerminal (s : BackupStatus) : Prop :=
  s = BackupStatus.success ∨ s = BackupStatus.failed

/-- The forward edges of the package-install state machine: the staged
progression plus an exception edge from any active stage to `failed`. -/
def modpackStep (a b : ModpackStatus) : Prop :=
  (a = ModpackStatus.pending ∧ b = ModpackStatus.downloading) ∨
  (a = ModpackStatus.downloading ∧ b = ModpackStatus.installing) ∨
  (a = ModpackStatus.installing ∧ b = ModpackStatus.completed) ∨
  ((a = ModpackStatus.pending ∨ a = ModpackStatus.downloading ∨
      a = ModpackStatus.installing) ∧ b = ModpackStatus.failed)

/-- Terminal modpack statuses. -/
def modpackTerminal (s : ModpackStatus) : Prop :=
  s = ModpackStatus.completed ∨ s = ModpackStatus.failed

instance : DecidableRel backupStep := fun a b =>
  inferInstanceAs (Decidable
    ((a = BackupStatus.pending ∧ b = BackupStatus.running) ∨
      (a = BackupStatus.running ∧ (b = BackupStatus.success ∨ b = BackupStatus.failed))))

instance : DecidablePred backupTerminal := fun s =>
  inferInstanceAs (Decidable (s = BackupStatus.success ∨ s = BackupStatus.failed))

instance : DecidableRel modpackStep := fun a b =>
  inferInstanceAs (Decidable
    ((a = ModpackStatus.pending ∧ b = ModpackStatus.downloading) ∨
      (a = ModpackStatus.downloading ∧ b = ModpackStatus.installing) ∨
      (a = ModpackStatus.installing ∧ b = ModpackStatus.completed) ∨
      ((a = ModpackStatus.pending ∨ a = ModpackStatus.downloading ∨
          a = ModpackStatus.installing) ∧ b = ModpackStatus.failed)))

instance : DecidablePred modpackTerminal := fun s =>
  inferInstanceAs (Decidable (s = ModpackStatus.completed ∨ s = ModpackStatus.failed))

/-- C10: every execution path of both job machines yields a status trace that
begins at `pending`, moves only along the allowed forward edges (exceptions
going to `failed`), ends in a terminal status, and passes through no terminal
status before its last element; terminal statuses have no outgoing edge, so
no whole-job retry is possible. -/
theorem job_state_machines (pipelineOk setupOk resolveOk installOk : Bool) :
    (List.Chain' backupStep (backupStatusTrace pipelineOk) ∧
      (backupStatusTrace pipelineOk).head? = some BackupStatus.pending ∧
      (∃ t, (backupStatusTrace pipelineOk).getLast? = some t ∧ backupTerminal t) ∧
      (∀ s ∈ (backupStatusTrace pipelineOk).dropLast, ¬backupTerminal s)) ∧
    (List.Chain' modpackStep (modpackStatusTrace setupOk resolveOk installOk) ∧
      (modpackStatusTrace setupOk resolveOk installOk).head? =
        some ModpackStatus.pending ∧
      (∃ t, (modpackStatusTrace setupOk resolveOk installOk).getLast? = some t ∧
        modpackTerminal t) ∧
      (∀ s ∈ (modpackStatusTrace setupOk resolveOk installOk).dropLast,
        ¬modpackTerminal s)) ∧
    (∀ a b, backupStep a b → ¬backupTerminal a) ∧
    (∀ a b, modpackStep a b → ¬modpackTerminal a) := by
  refine ⟨?_, ?_, fun a b h => ?_, fun a b h => ?_⟩
  · cases pipelineOk <;>
      exact ⟨by simp [backupStatusTrace, List.chain'_cons, backupStep],
        rfl, ⟨_, rfl, by decide⟩, by decide⟩
  · cases setupOk <;> cases resolveOk <;> cases installOk <;>
      exact ⟨by simp [modpackStatusTrace, List.chain'_cons, modpackStep],
        rfl, ⟨_, rfl, by decide⟩, by decide⟩
  · cases a <;> cases b <;> revert h <;> decide
  · cases a <;> cases b <;> revert h <;> decide

theorem job_state_machines_witness :
    ¬backupTerminal BackupStatus.running ∧ ¬modpackTerminal ModpackStatus.installing :=
  ⟨(job_state_machines true true true true).1.2.2.2 BackupStatus.running (by decide),
   (job_state_machines true true true true).2.1.2.2.2 ModpackStatus.installing
     (by decide)⟩

end Mineflare
